import Mathlib

/-!
# GoToSocial: ffprobe pool wrapper, fedi `AcceptGet`, punycode helpers

Shallow embedding of

* `internal/media/ffmpeg/ffprobe.go` (`InitFfprobe`, `Ffprobe`, the `Runtime`
  builder of `ffprobePool.inst`),
* `internal/processing/fedi/accept.go` (`Processor.AcceptGet`),
* `internal/util/punycode.go` (`Punify`, `DePunify`, `PunifyURI`, `URIMatches`).

Go functions with side effects are embedded in state-passing style: every
collaborator (the instance pool, wazero, the database, ...) is a function on an
abstract state `σ`, and the embedding keeps a log of the collaborator calls it
makes, in order.  A Go `panic` is an explicit outcome.
-/

namespace GoToSocial

/-- Outcome of a Go function body: it returns a value or it panics. -/
inductive Outcome (ε α : Type) where
  | ret (a : α)
  | panicked (e : ε)
deriving DecidableEq, Repr

/-! ## `internal/media/ffmpeg/ffprobe.go` -/

namespace Ffmpeg

/-- Calls that `ffprobe.go` makes on the rest of package `ffmpeg`. -/
inductive Call (Ctx Args : Type) where
  | initCache
  | poolInit (ctx : Ctx) (max : Int)
  | poolRun (ctx : Ctx) (args : Args)
deriving DecidableEq, Repr

/-- Process state of package `ffmpeg` (compilation cache, `ffprobePool`)
together with the log of calls made so far. -/
structure World (σ Ctx Args : Type) where
  st : σ
  calls : List (Call Ctx Args)

section Wrappers

variable {σ Ctx Args Err : Type}

/-- Source: `initCache()`, a package function defined outside `ffprobe.go`. -/
def callInitCache (initCache : σ → σ) (w : World σ Ctx Args) : World σ Ctx Args :=
  { st := initCache w.st, calls := w.calls ++ [Call.initCache] }

/-- Source: `ffprobePool.Init(ctx, max)`. -/
def callPoolInit (poolInit : Ctx → Int → σ → Option Err × σ)
    (ctx : Ctx) (max : Int) (w : World σ Ctx Args) : Option Err × World σ Ctx Args :=
  let r := poolInit ctx max w.st
  (r.1, { st := r.2, calls := w.calls ++ [Call.poolInit ctx max] })

/-- Source: `ffprobePool.Run(ctx, args)`; the exit code is a `uint32`. -/
def callPoolRun (poolRun : Ctx → Args → σ → (Nat × Option Err) × σ)
    (ctx : Ctx) (args : Args) (w : World σ Ctx Args) :
    (Nat × Option Err) × World σ Ctx Args :=
  let r := poolRun ctx args w.st
  (r.1, { st := r.2, calls := w.calls ++ [Call.poolRun ctx args] })

/-- Source:
```go
func InitFfprobe(ctx context.Context, max int) error {
	initCache() // ensure compilation cache initialized
	return ffprobePool.Init(ctx, max)
}
``` -/
def InitFfprobe (initCache : σ → σ) (poolInit : Ctx → Int → σ → Option Err × σ)
    (ctx : Ctx) (max : Int) (w : World σ Ctx Args) : Option Err × World σ Ctx Args :=
  let w1 := callInitCache initCache w
  callPoolInit poolInit ctx max w1

/-- Source:
```go
func Ffprobe(ctx context.Context, args wasm.Args) (uint32, error) {
	return ffprobePool.Run(ctx, args)
}
``` -/
def Ffprobe (poolRun : Ctx → Args → σ → (Nat × Option Err) × σ)
    (ctx : Ctx) (args : Args) (w : World σ Ctx Args) :
    (Nat × Option Err) × World σ Ctx Args :=
  callPoolRun poolRun ctx args w

end Wrappers

/-- The part of the wazero API (and of `wasi_snapshot_preview1`) used by the
`Runtime` builder.  A runtime is a value of `Rt`; instantiating a module in a
runtime yields an error value (`nil` is `none`) and the runtime afterwards. -/
structure Wazero (Ctx Cfg Feat Cache Rt Err : Type) where
  /-- Source: `context.Background()`. -/
  background : Ctx
  /-- Source: `wazero.NewRuntimeConfig()`. -/
  newRuntimeConfig : Cfg
  /-- Source: `cfg.WithCoreFeatures(f)`. -/
  withCoreFeatures : Cfg → Feat → Cfg
  /-- Source: `cfg.WithCompilationCache(c)`. -/
  withCompilationCache : Cfg → Cache → Cfg
  /-- Source: `wazero.NewRuntimeWithConfig(ctx, cfg)`. -/
  newRuntimeWithConfig : Ctx → Cfg → Rt
  /-- Source: `rt.NewHostModuleBuilder(name).Instantiate(ctx)`, module value dropped. -/
  instantiateHostModule : Ctx → String → Rt → Option Err × Rt
  /-- Source: `wasi_snapshot_preview1.Instantiate(ctx, rt)`, closer dropped. -/
  instantiateWasi : Ctx → Rt → Option Err × Rt

section RuntimeBuilder

variable {Ctx Cfg Feat Cache Rt Err : Type}

/-- Source: the `Runtime` field of `ffprobePool.inst`,
```go
Runtime: func(ctx context.Context) wazero.Runtime {
	cfg := wazero.NewRuntimeConfig()
	cfg = cfg.WithCoreFeatures(ffprobelib.CoreFeatures)
	cfg = cfg.WithCompilationCache(cache)
	rt := wazero.NewRuntimeWithConfig(ctx, cfg)
	env := rt.NewHostModuleBuilder("env")
	_, err := env.Instantiate(context.Background())
	if err != nil {
		panic(err)
	}
	_, err = wasi_snapshot_preview1.Instantiate(ctx, rt)
	if err != nil {
		panic(err)
	}
	return rt
},
```
`coreFeatures` is `ffprobelib.CoreFeatures`, `cache` the package variable. -/
def ffprobeRuntime (wz : Wazero Ctx Cfg Feat Cache Rt Err)
    (coreFeatures : Feat) (cache : Cache) (ctx : Ctx) : Outcome Err Rt :=
  let cfg := wz.newRuntimeConfig
  let cfg := wz.withCoreFeatures cfg coreFeatures
  let cfg := wz.withCompilationCache cfg cache
  let rt := wz.newRuntimeWithConfig ctx cfg
  match wz.instantiateHostModule wz.background "env" rt with
  | (some err, _) => Outcome.panicked err
  | (none, rt) =>
    match wz.instantiateWasi ctx rt with
    | (some err, _) => Outcome.panicked err
    | (none, rt) => Outcome.ret rt

/-- The runtime as the builder has it right after `NewRuntimeWithConfig`. -/
def ffprobeRuntimeFresh (wz : Wazero Ctx Cfg Feat Cache Rt Err)
    (coreFeatures : Feat) (cache : Cache) (ctx : Ctx) : Rt :=
  wz.newRuntimeWithConfig ctx
    (wz.withCompilationCache (wz.withCoreFeatures wz.newRuntimeConfig coreFeatures) cache)

end RuntimeBuilder

end Ffmpeg

/-! ## `internal/processing/fedi/accept.go` -/

namespace Fedi

/-- The one panic `AcceptGet` can raise itself: selecting a field through a
nil pointer. -/
inductive Panic where
  | nilDereference
deriving DecidableEq, Repr

/-- Calls that `AcceptGet` makes on its collaborators, in program order. -/
inductive Call where
  | authenticate (requestedUser : String)
  | getInteractionApprovalByID (approvalID : String)
  | interactionApprovalToASAccept
  | serialize
deriving DecidableEq, Repr

/-- Value returned by `p.authenticate`, as far as `AcceptGet` reads it:
`handshakingURI` is a pointer (`nil` is `none`), the receiving account is
read only through its `ID`. -/
structure Auth (URI : Type) where
  handshakingURI : Option URI
  receivingAcctID : String

/-- An argument handed to `gtserror.Newf`. -/
inductive FmtArg (URI E : Type) where
  | str (s : String)
  | uri (u : URI)
  | err (e : E)

/-- The collaborators of `AcceptGet`: the processor's `authenticate`, the
database, the type converter, `ap.Serialize`, and the error constructors of
`errors` and `gtserror`.  `σ` is the state they act on, `E` the Go `error`
values, `WC` the `gtserror.WithCode` values. -/
structure Processor (σ Ctx URI Approval Accept Data E WC : Type) where
  /-- Source: `p.authenticate(ctx, requestedUser)`. -/
  authenticate : Ctx → String → σ → (Auth URI × Option WC) × σ
  /-- Source: `p.state.DB.GetInteractionApprovalByID(ctx, approvalID)`; the
  approval is a pointer. -/
  getInteractionApprovalByID : Ctx → String → σ → (Option Approval × Option E) × σ
  /-- Source: `approval.AccountID`. -/
  accountID : Approval → String
  /-- Source: `p.converter.InteractionApprovalToASAccept(ctx, approval)`. -/
  interactionApprovalToASAccept : Ctx → Option Approval → σ → (Accept × Option E) × σ
  /-- Source: `ap.Serialize(accept)`. -/
  serialize : Accept → σ → (Option Data × Option E) × σ
  /-- Source: `errors.Is(err, db.ErrNoEntries)`. -/
  isErrNoEntries : E → Bool
  /-- Source: `errors.New(text)`. -/
  errorsNew : String → E
  /-- Source: `gtserror.Newf(format, args...)`. -/
  newf : String → List (FmtArg URI E) → E
  /-- Source: `gtserror.NewErrorInternalError(err)`. -/
  newErrorInternalError : E → WC
  /-- Source: `gtserror.NewErrorNotFound(err)`. -/
  newErrorNotFound : E → WC

/-- State of the collaborators together with the log of calls made so far. -/
structure World (σ : Type) where
  st : σ
  calls : List Call

section AcceptGet

variable {σ Ctx URI Approval Accept Data E WC : Type}

/-- Source: lines 71-83 of `accept.go`, from the conversion to the final
`return data, nil`. -/
def acceptGetConvert (p : Processor σ Ctx URI Approval Accept Data E WC)
    (ctx : Ctx) (approval : Option Approval) (w : World σ) :
    Outcome Panic (Option Data × Option WC) × World σ :=
  let r := p.interactionApprovalToASAccept ctx approval w.st
  let w := { st := r.2, calls := w.calls ++ [Call.interactionApprovalToASAccept] }
  match r.1 with
  | (_, some err) =>
    let err := p.newf "error converting approval: %w" [FmtArg.err err]
    (Outcome.ret (none, some (p.newErrorInternalError err)), w)
  | (accept, none) =>
    let r := p.serialize accept w.st
    let w := { st := r.2, calls := w.calls ++ [Call.serialize] }
    match r.1 with
    | (_, some err) =>
      let err := p.newf "error serializing accept: %w" [FmtArg.err err]
      (Outcome.ret (none, some (p.newErrorInternalError err)), w)
    | (data, none) => (Outcome.ret (data, none), w)

/-- Source: lines 55-69 of `accept.go`, from the database lookup to the
`approval == nil` check.  `approval.AccountID` is read before the nil check,
so a nil approval panics there. -/
def acceptGetLookup (p : Processor σ Ctx URI Approval Accept Data E WC)
    (ctx : Ctx) (approvalID : String) (receivingAcctID : String) (w : World σ) :
    Outcome Panic (Option Data × Option WC) × World σ :=
  let r := p.getInteractionApprovalByID ctx approvalID w.st
  let w := { st := r.2, calls := w.calls ++ [Call.getInteractionApprovalByID approvalID] }
  let approval := r.1.1
  let dbFailed : Option E :=
    match r.1.2 with
    | some err => if !p.isErrNoEntries err then some err else none
    | none => none
  match dbFailed with
  | some err =>
    let err := p.newf "db error getting approval %s: %w" [FmtArg.str approvalID, FmtArg.err err]
    (Outcome.ret (none, some (p.newErrorInternalError err)), w)
  | none =>
    match approval with
    | none => (Outcome.panicked Panic.nilDereference, w)
    | some a =>
      if p.accountID a ≠ receivingAcctID then
        (Outcome.ret (none, some (p.newErrorNotFound
          (p.errorsNew "approval does not belong to receiving account"))), w)
      else
        -- `approval == nil` is false here; its branch is unreachable
        acceptGetConvert p ctx approval w

/-- Source: `func (p *Processor) AcceptGet(ctx, requestedUser, approvalID)
(interface{}, gtserror.WithCode)`, lines 34-84 of `accept.go`. -/
def AcceptGet (p : Processor σ Ctx URI Approval Accept Data E WC)
    (ctx : Ctx) (requestedUser : String) (approvalID : String) (w : World σ) :
    Outcome Panic (Option Data × Option WC) × World σ :=
  let r := p.authenticate ctx requestedUser w.st
  let w := { st := r.2, calls := w.calls ++ [Call.authenticate requestedUser] }
  match r.1 with
  | (_, some errWithCode) => (Outcome.ret (none, some errWithCode), w)
  | (auth, none) =>
    match auth.handshakingURI with
    | some uri =>
      let err := p.newf "network race handshaking %s" [FmtArg.uri uri]
      (Outcome.ret (none, some (p.newErrorInternalError err)), w)
    | none => acceptGetLookup p ctx approvalID auth.receivingAcctID w

end AcceptGet

end Fedi

/-! ## `internal/util/punycode.go` -/

namespace Util

/-- A `url.URL` value: the `Host` field, which `PunifyURI` rewrites, and all
the other fields, which it copies. -/
structure URL (R : Type) where
  Host : String
  rest : R
deriving DecidableEq, Repr

/-- The library functions `punycode.go` calls: `strings.ToLower`,
`idna.ToASCII`, `idna.ToUnicode` (package `golang.org/x/net/idna`) and the
`String` method of `*url.URL`.  `Err` is the Go `error` values. -/
structure Lib (R Err : Type) where
  /-- Source: `strings.ToLower(s)`. -/
  toLower : String → String
  /-- Source: `idna.ToASCII(s)`. -/
  toASCII : String → String × Option Err
  /-- Source: `idna.ToUnicode(s)`. -/
  toUnicode : String → String × Option Err
  /-- Source: `u.String()`. -/
  urlString : URL R → String

/-- The panic of reading through a nil `*url.URL`. -/
inductive Panic where
  | nilDereference
deriving DecidableEq, Repr

section Punycode

variable {R Err : Type}

/-- Source:
```go
func Punify(domain string) (string, error) {
	domain = strings.ToLower(domain)
	return idna.ToASCII(domain)
}
``` -/
def Punify (lib : Lib R Err) (domain : String) : String × Option Err :=
  let domain := lib.toLower domain
  lib.toASCII domain

/-- Source:
```go
func DePunify(domain string) (string, error) {
	out, err := idna.ToUnicode(domain)
	return strings.ToLower(out), err
}
``` -/
def DePunify (lib : Lib R Err) (domain : String) : String × Option Err :=
  let r := lib.toUnicode domain
  (lib.toLower r.1, r.2)

/-- Source:
```go
func PunifyURI(in *url.URL) (*url.URL, error) {
	out := new(url.URL)
	*out = *in
	var err error
	out.Host, err = Punify(in.Host)
	return out, err
}
```
The argument is a pointer, `none` is `nil`; the returned pointer is never nil. -/
def PunifyURI (lib : Lib R Err) (uri : Option (URL R)) :
    Outcome Panic (URL R × Option Err) :=
  match uri with
  | none => Outcome.panicked Panic.nilDereference
  | some u =>
    let out := u
    let r := Punify lib u.Host
    Outcome.ret ({ out with Host := r.1 }, r.2)

/-- Source: the `for _, uri := range uris` loop of `URIMatches` with the
`return false, nil` after it. -/
def uriMatchesLoop (lib : Lib R Err) (expectStr : String) :
    List (Option (URL R)) → Outcome Panic (Bool × Option Err)
  | [] => Outcome.ret (false, none)
  | uri :: uris =>
    match PunifyURI lib uri with
    | Outcome.panicked p => Outcome.panicked p
    | Outcome.ret (_, some err) => Outcome.ret (false, some err)
    | Outcome.ret (uriPuny, none) =>
      if lib.urlString uriPuny = expectStr then Outcome.ret (true, none)
      else uriMatchesLoop lib expectStr uris

/-- Source: `func URIMatches(expect *url.URL, uris ...*url.URL) (bool, error)`,
lines 49-71 of `punycode.go`. -/
def URIMatches (lib : Lib R Err) (expect : Option (URL R))
    (uris : List (Option (URL R))) : Outcome Panic (Bool × Option Err) :=
  match PunifyURI lib expect with
  | Outcome.panicked p => Outcome.panicked p
  | Outcome.ret (_, some err) => Outcome.ret (false, some err)
  | Outcome.ret (expectPuny, none) =>
    let expectStr := lib.urlString expectPuny
    uriMatchesLoop lib expectStr uris

/-- The URI `u` matches `expect`: `PunifyURI` succeeds on both and the two
punified URIs have the same `String()`. -/
def UriMatch (lib : Lib R Err) (expect u : Option (URL R)) : Prop :=
  ∃ ep up, PunifyURI lib expect = Outcome.ret (ep, none) ∧
    PunifyURI lib u = Outcome.ret (up, none) ∧ lib.urlString up = lib.urlString ep

/-- `PunifyURI` succeeds on `u`: it returns, with a nil error. -/
def PunifyOk (lib : Lib R Err) (u : Option (URL R)) : Prop :=
  ∃ up, PunifyURI lib u = Outcome.ret (up, none)

end Punycode

/-- The labels of a domain name: the pieces between its dots. -/
def labelsOf : List Char → List (List Char)
  | [] => [[]]
  | c :: cs =>
    if c = '.' then [] :: labelsOf cs
    else
      match labelsOf cs with
      | [] => [[c]]
      | l :: ls => (c :: l) :: ls

/-- The ACE prefix that marks a punycode-encoded label. -/
def acePrefix : List Char := ['x', 'n', '-', '-']

/-- No label of the domain carries the `xn--` prefix. -/
def NotPuny (domain : String) : Prop :=
  ∀ l ∈ labelsOf domain.data, ¬ acePrefix <+: l

instance (domain : String) : Decidable (NotPuny domain) := by
  unfold NotPuny; infer_instance

end Util

/-! ## The instance pool behind `ffprobePool`

`wasmInstancePool` (its `Init` and `Run`) and `initCache` are defined in
package `ffmpeg` outside `ffprobe.go`.  The definitions of this section follow
the specification of the pool (its sections 3, 4.3, 5 and 7), not code. -/

namespace Ffmpeg

/-- Modelled from the spec: the error taxonomy of section 7; `wasmInstancePool`
is outside the sources. -/
inductive PoolError where
  | initialization
  | compile
  | acquireCancelled
  | sandboxFault
deriving DecidableEq, Repr

/-- Modelled from the spec: the phase of one `Run` call, which per section 4.3
goes `Acquiring → Executing → Released`; a released run carries the
`(exitCode, error)` pair it returned.  `wasmInstancePool.Run` is outside the
sources. -/
inductive RunPhase where
  | acquiring
  | executing
  | released (exitCode : Nat) (err : Option PoolError)
deriving DecidableEq, Repr

/-- Modelled from the spec: the mutable state of the Instance Pool of section
3, the concurrency limit `N` and the count of currently active executions,
together with the `Run` calls issued so far, one phase each.
`wasmInstancePool` is outside the sources. -/
structure Pool where
  limit : Nat
  active : Nat
  runs : List RunPhase
deriving DecidableEq, Repr

/-- Modelled from the spec: the process state the pool lives in: whether the
Compilation Cache is initialised, whether the embedded bytecode fails to
compile (a `CompileError` of section 7), and the pool, `none` while it is
`Uninitialized`.  `initCache` and `ffprobePool` are outside the sources. -/
structure PoolWorld where
  cacheReady : Bool
  compileFails : Bool
  pool : Option Pool
deriving DecidableEq, Repr

/-- Modelled from the spec: `initCache`, "ensures the Compilation Cache is
initialized (idempotent)"; the function is outside the sources. -/
def specInitCache (s : PoolWorld) : PoolWorld :=
  { s with cacheReady := true }

/-- Modelled from the spec: `wasmInstancePool.Init`, which is outside the
sources.  Per sections 4.3 and 7: precondition `max >= 1`, an invalid `max` is
an InitializationError and a bytecode that does not compile a CompileError;
otherwise it "sets the pool's concurrency limit to `max`".  An `Uninitialized`
pool becomes `Ready` with no active execution. -/
def specPoolInit {Ctx : Type} (_ctx : Ctx) (max : Int) (s : PoolWorld) :
    Option PoolError × PoolWorld :=
  if max < 1 then (some PoolError.initialization, s)
  else if s.compileFails then (some PoolError.compile, s)
  else
    match s.pool with
    | none => (none, { s with pool := some { limit := max.toNat, active := 0, runs := [] } })
    | some p => (none, { s with pool := some { p with limit := max.toNat } })

/-- Modelled from the spec: what `Init` does on a pool that is already
`Ready`, which section 4.3 leaves implementation-defined, "either idempotent
(no-op) or an explicit re-configuration"; `wasmInstancePool.Init` is outside
the sources. -/
inductive ReInit where
  | idempotent
  | reconfiguration
deriving DecidableEq, Repr

/-- Modelled from the spec: `wasmInstancePool.Init` (outside the sources)
under either behaviour section 4.3 allows on a pool that is already `Ready`.
As a re-configuration it is `specPoolInit`, which sets the limit to `max`; as
an idempotent `Init` it leaves a `Ready` pool as it is (an invalid `max` is
still an InitializationError).  On an `Uninitialized` pool both are
`specPoolInit`. -/
def specPoolInitAs {Ctx : Type} (mode : ReInit) (ctx : Ctx) (max : Int) (s : PoolWorld) :
    Option PoolError × PoolWorld :=
  match mode, s.pool with
  | ReInit.idempotent, some _ =>
    if max < 1 then (some PoolError.initialization, s) else (none, s)
  | _, _ => specPoolInit ctx max s

/-- Modelled from the spec: what can happen, one atomic step at a time, while
any number of callers are inside `Ffprobe`, that is inside
`wasmInstancePool.Run` (outside the sources), per sections 4.3 and 5:
a caller enters `Run`; a waiting run acquires a slot; the context of a waiting
run is cancelled; the tool of an executing run exits with a status; the tool
of an executing run faults (the sentinel status is left open by the spec). -/
inductive PoolEvent where
  | call
  | acquire (i : Nat)
  | cancel (i : Nat)
  | toolExit (i : Nat) (status : Nat)
  | toolFault (i : Nat) (sentinel : Nat)
deriving DecidableEq, Repr

/-- Modelled from the spec: one step of the pool (`wasmInstancePool.Run` is
outside the sources).  A run acquires only when "a concurrency slot is
available", a cancelled waiter "never occupies a slot", and "the concurrency
slot is released on every exit path".  An event that is not possible in the
current state changes nothing. -/
def Pool.step (p : Pool) : PoolEvent → Pool
  | PoolEvent.call => { p with runs := p.runs ++ [RunPhase.acquiring] }
  | PoolEvent.acquire i =>
    if p.runs.get? i = some RunPhase.acquiring ∧ p.active < p.limit then
      { p with active := p.active + 1, runs := p.runs.set i RunPhase.executing }
    else p
  | PoolEvent.cancel i =>
    if p.runs.get? i = some RunPhase.acquiring then
      { p with
        runs := p.runs.set i (RunPhase.released 0 (some PoolError.acquireCancelled)) }
    else p
  | PoolEvent.toolExit i status =>
    if p.runs.get? i = some RunPhase.executing then
      { p with active := p.active - 1, runs := p.runs.set i (RunPhase.released status none) }
    else p
  | PoolEvent.toolFault i sentinel =>
    if p.runs.get? i = some RunPhase.executing then
      { p with
        active := p.active - 1
        runs := p.runs.set i (RunPhase.released sentinel (some PoolError.sandboxFault)) }
    else p

/-- Modelled from the spec: a step of the process state; `Run` on a pool that
was never initialised is not described by the spec and changes nothing here.
`wasmInstancePool.Run` is outside the sources. -/
def PoolWorld.step (s : PoolWorld) (e : PoolEvent) : PoolWorld :=
  match s.pool with
  | none => s
  | some p => { s with pool := some (p.step e) }

/-- The process state after a schedule of pool events. -/
def PoolWorld.run (s : PoolWorld) (events : List PoolEvent) : PoolWorld :=
  events.foldl PoolWorld.step s

/-- The number of executions concurrently active: the runs that are in the
`Executing` phase. -/
def Pool.executing (p : Pool) : Nat :=
  p.runs.count RunPhase.executing

/-- The number of executions concurrently active in a process state. -/
def PoolWorld.executing (s : PoolWorld) : Nat :=
  match s.pool with
  | none => 0
  | some p => p.executing

/-- The pool counts its active executions right and keeps them within its limit. -/
def Pool.Consistent (p : Pool) : Prop :=
  p.active = p.executing ∧ p.active ≤ p.limit

/-- A process that has not called `InitFfprobe` yet and whose embedded
bytecode compiles. -/
def freshWorld : World PoolWorld Unit (List String) :=
  { st := { cacheReady := false, compileFails := false, pool := none }, calls := [] }

/-- A process whose embedded bytecode does not compile. -/
def brokenWorld : World PoolWorld Unit (List String) :=
  { st := { cacheReady := false, compileFails := true, pool := none }, calls := [] }

/-- A process whose pool was initialised with a limit of five and in which
three callers of `Ffprobe` have acquired a slot and are executing. -/
def busyWorld : World PoolWorld Unit (List String) :=
  { st := (InitFfprobe specInitCache specPoolInit () 5 freshWorld).2.st.run
      [PoolEvent.call, PoolEvent.call, PoolEvent.call,
       PoolEvent.acquire 0, PoolEvent.acquire 1, PoolEvent.acquire 2],
    calls := [Call.initCache, Call.poolInit () 5] }

/-- A pool `Run` for one uncontended call whose tool exits with the number of
arguments it was given; used to evaluate `Ffprobe` on concrete input. -/
def countingRun (_ctx : Unit) (args : List String) (s : PoolWorld) :
    (Nat × Option PoolError) × PoolWorld :=
  ((args.length, none),
    ((s.step PoolEvent.call).step (PoolEvent.acquire 0)).step (PoolEvent.toolExit 0 args.length))

/-- The schedule of the spec's scenario for a limit of two: five callers
enter, the first three try to acquire, the first tool exits and the third
caller tries again. -/
def scenarioSchedule : List PoolEvent :=
  [PoolEvent.call, PoolEvent.call, PoolEvent.call, PoolEvent.call, PoolEvent.call,
   PoolEvent.acquire 0, PoolEvent.acquire 1, PoolEvent.acquire 2,
   PoolEvent.toolExit 0 0, PoolEvent.acquire 2]

/-- A wazero whose runtimes are the lists of module names registered in them
and in which the registration of the modules named in `failing` fails. -/
def listWazero (failing : List String) :
    Wazero Unit (List String) String String (List String) String where
  background := ()
  newRuntimeConfig := []
  withCoreFeatures := fun cfg f => cfg ++ [f]
  withCompilationCache := fun cfg c => cfg ++ [c]
  newRuntimeWithConfig := fun _ _ => []
  instantiateHostModule := fun _ name rt =>
    if name ∈ failing then (some ("cannot instantiate " ++ name), rt) else (none, rt ++ [name])
  instantiateWasi := fun _ rt =>
    if "wasi_snapshot_preview1" ∈ failing then (some "cannot instantiate wasi", rt)
    else (none, rt ++ ["wasi_snapshot_preview1"])

end Ffmpeg

/-! ## Concrete collaborators, for evaluating the embeddings -/

namespace Fedi

/-- An interaction approval as the sample database stores it. -/
structure SampleApproval where
  ID : String
  AccountID : String
deriving DecidableEq, Repr

/-- A processor over a state that counts the collaborator calls served:
`alice` authenticates as account `A1`, `bob` is still handshaking, everyone
else is refused with code 401; the database holds the approval `ap1` of
account `A1` and answers `ErrNoEntries` (with a nil approval) for other ids. -/
def sampleProcessor :
    Processor Nat Unit String SampleApproval String String String (Nat × String) where
  authenticate := fun _ user n =>
    if user = "alice" then (({ handshakingURI := none, receivingAcctID := "A1" }, none), n + 1)
    else if user = "bob" then
      (({ handshakingURI := some "https://remote.example/users/bob", receivingAcctID := "" },
        none), n + 1)
    else (({ handshakingURI := none, receivingAcctID := "" }, some (401, "unauthorized")), n + 1)
  getInteractionApprovalByID := fun _ id n =>
    if id = "ap1" then ((some { ID := "ap1", AccountID := "A1" }, none), n + 1)
    else ((none, some "sql: no rows in result set"), n + 1)
  accountID := fun a => a.AccountID
  interactionApprovalToASAccept := fun _ a n =>
    match a with
    | some a => (("Accept " ++ a.ID, none), n + 1)
    | none => (("", some "nil approval"), n + 1)
  serialize := fun accept n => ((some ("\"" ++ accept ++ "\""), none), n + 1)
  isErrNoEntries := fun e => e == "sql: no rows in result set"
  errorsNew := fun text => text
  newf := fun format _ => format
  newErrorInternalError := fun e => (500, e)
  newErrorNotFound := fun e => (404, e)

/-- A state in which no collaborator was called yet. -/
def sampleWorld : World Nat := { st := 0, calls := [] }

end Fedi

namespace Util

/-- Errors of the sample library. -/
inductive SampleErr where
  | invalidLabel (label : String)
deriving DecidableEq, Repr

/-- ASCII lower-casing; `strings.ToLower` agrees with it on ASCII strings. -/
def asciiToLower (s : String) : String :=
  String.mk (s.data.map Char.toLower)

/-- `scheme://host/path` for a URL whose other fields are a scheme and a path;
`(*url.URL).String` agrees with it on URLs that have only these three parts. -/
def schemeHostPath (u : URL (String × String)) : String :=
  u.rest.1 ++ "://" ++ u.Host ++ u.rest.2

/-- A stand-in for the library, exact on the inputs it is evaluated on below:
`idna.ToASCII` returns an ASCII host without `xn--` label as it is, with a nil
error, and returns the host `xn--*` with an error, because `*` is no punycode
digit; `idna.ToUnicode` returns a domain without `xn--` label as it is, with
a nil error.  The stand-in does not encode or decode other labels. -/
def sampleLib : Lib (String × String) SampleErr where
  toLower := asciiToLower
  toASCII := fun s => if s = "xn--*" then (s, some (SampleErr.invalidLabel "*")) else (s, none)
  toUnicode := fun s => (s, none)
  urlString := schemeHostPath

/-- The URL `https://example.org/users/a`. -/
def exampleURL : URL (String × String) :=
  { Host := "example.org", rest := ("https", "/users/a") }

/-- The URL `https://EXAMPLE.org/users/a`, the same host in another case. -/
def exampleUpperURL : URL (String × String) :=
  { Host := "EXAMPLE.org", rest := ("https", "/users/a") }

/-- The URL `https://xn--*/users/a`, whose host is no valid punycode. -/
def brokenURL : URL (String × String) :=
  { Host := "xn--*", rest := ("https", "/users/a") }

/-- The URL `https://other.example/users/b`. -/
def otherURL : URL (String × String) :=
  { Host := "other.example", rest := ("https", "/users/b") }

end Util

/-! ## Theorems: `ffprobe.go` -/

namespace Ffmpeg

section WrapperTheorems

variable {σ Ctx Args Err : Type}

/-- C1: `InitFfprobe(ctx, max)` calls `initCache` first and then the pool's
`Init` with the same `ctx` and `max`, on the state `initCache` left; it
returns exactly the error of that `Init` and leaves the state `Init` left.
The two calls are made on every call of `InitFfprobe`: the log grows by
`initCache, poolInit ctx max` whatever `Init` returns, so the cache is
prepared also when `Init` fails. -/
theorem InitFfprobe_prepares_cache_then_inits_pool
    (initCache : σ → σ) (poolInit : Ctx → Int → σ → Option Err × σ)
    (ctx : Ctx) (max : Int) (w : World σ Ctx Args) :
    (InitFfprobe initCache poolInit ctx max w).1 = (poolInit ctx max (initCache w.st)).1 ∧
    (InitFfprobe initCache poolInit ctx max w).2.st = (poolInit ctx max (initCache w.st)).2 ∧
    (InitFfprobe initCache poolInit ctx max w).2.calls =
      w.calls ++ [Call.initCache, Call.poolInit ctx max] := by
  refine ⟨rfl, rfl, ?_⟩
  simp [InitFfprobe, callInitCache, callPoolInit]

/-- C2: `Ffprobe(ctx, args)` makes one call, the pool's `Run` with the same
`ctx` and `args`, and returns exactly its `(exit code, error)` pair; so when
`Run` reports that the tool exited with status `K`, zero or not, `Ffprobe`
returns `(K, nil)`. -/
theorem Ffprobe_returns_pool_run
    (poolRun : Ctx → Args → σ → (Nat × Option Err) × σ)
    (ctx : Ctx) (args : Args) (w : World σ Ctx Args) :
    (Ffprobe poolRun ctx args w).1 = (poolRun ctx args w.st).1 ∧
    (Ffprobe poolRun ctx args w).2.st = (poolRun ctx args w.st).2 ∧
    (Ffprobe poolRun ctx args w).2.calls = w.calls ++ [Call.poolRun ctx args] ∧
    ∀ K : Nat, (poolRun ctx args w.st).1 = (K, none) →
      (Ffprobe poolRun ctx args w).1 = (K, none) :=
  ⟨rfl, rfl, rfl, fun _ h => h⟩

end WrapperTheorems

/-- C2, evaluated: a tool that exits with the non-zero status 3 makes
`Ffprobe` return `(3, nil)`. -/
theorem Ffprobe_returns_pool_run_witness :
    (Ffprobe countingRun ()
        ["-i", "in.mp4", "-show_streams"]
        ((InitFfprobe specInitCache specPoolInit () 1 freshWorld).2)).1 = (3, none) :=
  (Ffprobe_returns_pool_run countingRun () ["-i", "in.mp4", "-show_streams"]
    ((InitFfprobe specInitCache specPoolInit () 1 freshWorld).2)).2.2.2 3 (by decide)

section RuntimeTheorems

variable {Ctx Cfg Feat Cache Rt Err : Type}

/-- C4: the `Runtime` builder of the ffprobe Instantiator treats a failed
host-shim registration as fatal.  If instantiating the `env` host module
returns an error the builder panics with that error; if that succeeds and
instantiating WASI snapshot-preview-1 returns an error the builder panics with
that error; and it returns a runtime exactly when both registrations returned
a nil error, the runtime being the one both modules were registered in.  Its
only return value is the runtime, so a failure is never a returned error. -/
theorem ffprobeRuntime_registration_failure_panics
    (wz : Wazero Ctx Cfg Feat Cache Rt Err) (coreFeatures : Feat) (cache : Cache) (ctx : Ctx) :
    let rt0 := ffprobeRuntimeFresh wz coreFeatures cache ctx
    let env := wz.instantiateHostModule wz.background "env" rt0
    let wasi := wz.instantiateWasi ctx env.2
    (∀ e, env.1 = some e → ffprobeRuntime wz coreFeatures cache ctx = Outcome.panicked e) ∧
    (∀ e, env.1 = none → wasi.1 = some e →
      ffprobeRuntime wz coreFeatures cache ctx = Outcome.panicked e) ∧
    (∀ rt, ffprobeRuntime wz coreFeatures cache ctx = Outcome.ret rt ↔
      env.1 = none ∧ wasi.1 = none ∧ rt = wasi.2) := by
  intro rt0 env wasi
  have hdef : ffprobeRuntime wz coreFeatures cache ctx =
      (match env with
       | (some err, _) => Outcome.panicked err
       | (none, rt) =>
         match wz.instantiateWasi ctx rt with
         | (some err, _) => Outcome.panicked err
         | (none, rt) => Outcome.ret rt) := rfl
  have hwasi : wasi = wz.instantiateWasi ctx env.2 := rfl
  rw [hdef, hwasi]
  generalize env = envr
  rcases envr with ⟨_ | e1, rt1⟩
  · rcases h2 : wz.instantiateWasi ctx rt1 with ⟨_ | e2, rt2⟩
    · simp [h2, eq_comm]
    · simp [h2]
  · simp

end RuntimeTheorems

/-- C4, evaluated: when the registration of the `env` host module fails, the
builder panics with the error of that registration. -/
theorem ffprobeRuntime_registration_failure_panics_witness :
    ffprobeRuntime (listWazero ["env"]) "features" "cache" () =
      Outcome.panicked "cannot instantiate env" :=
  (ffprobeRuntime_registration_failure_panics (listWazero ["env"]) "features" "cache" ()).1
    "cannot instantiate env" (by decide)

end Ffmpeg

/-! ## Theorems: `accept.go` -/

namespace Fedi

section AcceptGetTheorems

variable {σ Ctx URI Approval Accept Data E WC : Type}

/-- The conversion and serialisation steps only add calls to the log. -/
theorem acceptGetConvert_calls (p : Processor σ Ctx URI Approval Accept Data E WC)
    (ctx : Ctx) (approval : Option Approval) (w : World σ) :
    w.calls <+: (acceptGetConvert p ctx approval w).2.calls := by
  unfold acceptGetConvert
  rcases h1 : (p.interactionApprovalToASAccept ctx approval w.st) with ⟨⟨accept, _ | e⟩, s1⟩
  · rcases h2 : (p.serialize accept s1) with ⟨⟨data, _ | e⟩, s2⟩
    · simp only [h2]
      exact ⟨[Call.interactionApprovalToASAccept, Call.serialize], by simp⟩
    · simp only [h2]
      exact ⟨[Call.interactionApprovalToASAccept, Call.serialize], by simp⟩
  · exact ⟨[Call.interactionApprovalToASAccept], rfl⟩

/-- The lookup step and what follows it only add calls to the log. -/
theorem acceptGetLookup_calls (p : Processor σ Ctx URI Approval Accept Data E WC)
    (ctx : Ctx) (approvalID acct : String) (w : World σ) :
    w.calls <+: (acceptGetLookup p ctx approvalID acct w).2.calls := by
  have hstep : w.calls <+: w.calls ++ [Call.getInteractionApprovalByID approvalID] :=
    List.prefix_append _ _
  unfold acceptGetLookup
  simp only
  split
  · exact hstep
  · split
    · exact hstep
    · split
      · exact hstep
      · refine hstep.trans ?_
        exact acceptGetConvert_calls p ctx _
          { st := _, calls := w.calls ++ [Call.getInteractionApprovalByID approvalID] }

/-- C5: `AcceptGet` authenticates before it returns anything.  If
authenticating `requestedUser` fails with an error, `AcceptGet` returns a nil
result together with exactly that error, and the only collaborator call it
has made is that authentication: no approval lookup, no conversion, no
serialisation.  On every path the first call made is the authentication, and
a non-nil result is returned only when the authentication returned a nil
error. -/
theorem AcceptGet_authenticates_first (p : Processor σ Ctx URI Approval Accept Data E WC)
    (ctx : Ctx) (requestedUser approvalID : String) (w : World σ) :
    (∀ e, (p.authenticate ctx requestedUser w.st).1.2 = some e →
      AcceptGet p ctx requestedUser approvalID w =
        (Outcome.ret (none, some e),
          { st := (p.authenticate ctx requestedUser w.st).2,
            calls := w.calls ++ [Call.authenticate requestedUser] })) ∧
    (w.calls ++ [Call.authenticate requestedUser] <+:
      (AcceptGet p ctx requestedUser approvalID w).2.calls) ∧
    (∀ data err,
      (AcceptGet p ctx requestedUser approvalID w).1 = Outcome.ret (some data, err) →
      (p.authenticate ctx requestedUser w.st).1.2 = none) := by
  unfold AcceptGet
  rcases h : p.authenticate ctx requestedUser w.st with ⟨⟨auth, _ | e⟩, s1⟩
  · refine ⟨fun e he => (by cases he), ?_, fun _ _ _ => rfl⟩
    simp only
    rcases auth.handshakingURI with _ | uri
    · exact acceptGetLookup_calls p ctx approvalID auth.receivingAcctID
        { st := s1, calls := w.calls ++ [Call.authenticate requestedUser] }
    · exact List.prefix_refl _
  · refine ⟨fun e' he => ?_, List.prefix_refl _, fun data err hret => ?_⟩
    · cases he
      rfl
    · simp at hret

/-- An authenticated requester, no handshake in progress, and a database
lookup that returns a nil approval with either a nil error or an error that
is `db.ErrNoEntries`: `AcceptGet` reads `approval.AccountID` through the nil
pointer and panics; the `approval == nil` check that follows is never
reached. -/
theorem AcceptGet_nil_approval_panics (p : Processor σ Ctx URI Approval Accept Data E WC)
    (ctx : Ctx) (requestedUser approvalID : String) (w : World σ) (dbErr : Option E)
    (hauth : (p.authenticate ctx requestedUser w.st).1.2 = none)
    (hshake : (p.authenticate ctx requestedUser w.st).1.1.handshakingURI = none)
    (hdb : (p.getInteractionApprovalByID ctx approvalID
      (p.authenticate ctx requestedUser w.st).2).1 = (none, dbErr))
    (hnoEntries : ∀ e, dbErr = some e → p.isErrNoEntries e = true) :
    (AcceptGet p ctx requestedUser approvalID w).1 = Outcome.panicked Panic.nilDereference := by
  unfold AcceptGet
  rcases h : p.authenticate ctx requestedUser w.st with ⟨⟨auth, aerr⟩, s1⟩
  rw [h] at hauth hshake hdb
  simp only at hauth hshake hdb
  subst hauth
  simp only [hshake]
  unfold acceptGetLookup
  simp only [hdb]
  cases dbErr with
  | none => rfl
  | some e => simp [hnoEntries e rfl]

end AcceptGetTheorems

/-- C5, evaluated: a requester who fails authentication gets the nil result
and the authentication error 401, and only the authentication was called. -/
theorem AcceptGet_authenticates_first_witness :
    AcceptGet sampleProcessor () "mallory" "ap1" sampleWorld =
      (Outcome.ret (none, some (401, "unauthorized")),
        { st := 1, calls := [Call.authenticate "mallory"] }) :=
  (AcceptGet_authenticates_first sampleProcessor () "mallory" "ap1" sampleWorld).1
    (401, "unauthorized") (by decide)

/-- Evaluated: an authenticated requester asking for an approval the
database does not hold makes `AcceptGet` panic after the lookup. -/
theorem AcceptGet_nil_approval_panics_witness :
    (AcceptGet sampleProcessor () "alice" "missing" sampleWorld).1 =
      Outcome.panicked Panic.nilDereference :=
  AcceptGet_nil_approval_panics sampleProcessor () "alice" "missing" sampleWorld
    (some "sql: no rows in result set") rfl rfl rfl
    (by
      intro e he
      cases he
      decide)

/-- Evaluated: an authenticated requester asking for a stored approval of
their own gets the serialised Accept, after authentication, lookup,
conversion and serialisation, in this order. -/
theorem AcceptGet_sample_success :
    AcceptGet sampleProcessor () "alice" "ap1" sampleWorld =
      (Outcome.ret (some "\"Accept ap1\"", none),
        { st := 4,
          calls := [Call.authenticate "alice", Call.getInteractionApprovalByID "ap1",
            Call.interactionApprovalToASAccept, Call.serialize] }) := by
  rfl

end Fedi

/-! ## Theorems: `punycode.go` -/

namespace Util

section PunycodeTheorems

variable {R Err : Type}

/-- The loop of `URIMatches` answers `(true, nil)` at the first element that
matches, provided every element before it punifies without error. -/
theorem uriMatchesLoop_first_match (lib : Lib R Err) (expectStr : String)
    (u : Option (URL R)) (up : URL R) (pre post : List (Option (URL R)))
    (hu : PunifyURI lib u = Outcome.ret (up, none)) (hstr : lib.urlString up = expectStr)
    (hpre : ∀ v ∈ pre, PunifyOk lib v) :
    uriMatchesLoop lib expectStr (pre ++ u :: post) = Outcome.ret (true, none) := by
  induction pre with
  | nil => simp [uriMatchesLoop, hu, hstr]
  | cons v pre ih =>
    obtain ⟨vp, hv⟩ := hpre v (List.mem_cons_self v pre)
    have ih := ih (fun x hx => hpre x (List.mem_cons_of_mem v hx))
    simp only [List.cons_append, uriMatchesLoop, hv]
    split
    · rfl
    · exact ih

/-- C6, amended: if some element `u` of `uris` matches `expect` (`PunifyURI`
succeeds on both and the punified URIs have the same `String()`), and
`PunifyURI` succeeds on every element that stands before `u` in the list,
then `URIMatches(expect, uris...)` returns `(true, nil)`, whatever the
elements after `u` are. -/
theorem URIMatches_true_of_match_after_punifiable (lib : Lib R Err)
    (expect u : Option (URL R)) (pre post : List (Option (URL R)))
    (hmatch : UriMatch lib expect u) (hpre : ∀ v ∈ pre, PunifyOk lib v) :
    URIMatches lib expect (pre ++ u :: post) = Outcome.ret (true, none) := by
  obtain ⟨ep, up, hep, hup, hstr⟩ := hmatch
  unfold URIMatches
  rw [hep]
  exact uriMatchesLoop_first_match lib (lib.urlString ep) u up pre post hup hstr hpre

end PunycodeTheorems

/-- C6, counterexample: `https://example.org/users/a` is an element of the
list and matches the expected URI, yet `URIMatches` does not return
`(true, nil)`: the element before it has the host `xn--*`, which does not
punify, and `URIMatches` returns `false` with that error. -/
theorem URIMatches_any_counterexample :
    some exampleURL ∈ [some brokenURL, some exampleURL] ∧
    UriMatch sampleLib (some exampleURL) (some exampleURL) ∧
    URIMatches sampleLib (some exampleURL) [some brokenURL, some exampleURL] =
      Outcome.ret (false, some (SampleErr.invalidLabel "*")) ∧
    URIMatches sampleLib (some exampleURL) [some brokenURL, some exampleURL] ≠
      Outcome.ret (true, none) := by
  refine ⟨by simp, ⟨_, _, rfl, rfl, rfl⟩, by decide, by decide⟩

/-- C6, amended, evaluated: the expected URI is found, up to the case of the
host, behind an element that punifies and does not match, and before an
element that does not punify. -/
theorem URIMatches_true_of_match_after_punifiable_witness :
    URIMatches sampleLib (some exampleURL)
      ([some otherURL] ++ some exampleUpperURL :: [some brokenURL]) =
      Outcome.ret (true, none) :=
  URIMatches_true_of_match_after_punifiable sampleLib (some exampleURL)
    (some exampleUpperURL) [some otherURL] [some brokenURL]
    ⟨_, _, rfl, rfl, by decide⟩
    (by
      intro v hv
      rw [List.mem_singleton] at hv
      subst hv
      exact ⟨_, rfl⟩)

/-- C7, at the failing input: no label of `Example.com` carries the `xn--`
prefix and `idna.ToUnicode` returns it as it is, with a nil error, yet
`DePunify` is no no-op on it: it returns `example.com`, because line 44
lowercases whatever `idna.ToUnicode` returned. -/
theorem DePunify_changes_non_puny_domain :
    NotPuny "Example.com" ∧
    sampleLib.toUnicode "Example.com" = ("Example.com", none) ∧
    DePunify sampleLib "Example.com" = ("example.com", none) ∧
    DePunify sampleLib "Example.com" ≠ ("Example.com", none) := by
  refine ⟨by decide, rfl, by decide, by decide⟩

end Util

/-! ## Theorems: the concurrency bound of the pool -/

namespace Ffmpeg

/-- Replacing the phase of one run changes the number of executing runs by
what the old and the new phase contribute. -/
theorem count_executing_set (l : List RunPhase) (i : Nat) (old new : RunPhase)
    (h : l.get? i = some old) :
    (l.set i new).count RunPhase.executing + (if old = RunPhase.executing then 1 else 0) =
      l.count RunPhase.executing + (if new = RunPhase.executing then 1 else 0) := by
  induction l generalizing i with
  | nil => simp at h
  | cons x l ih =>
    cases i with
    | zero =>
      simp only [List.get?_cons_zero, Option.some.injEq] at h
      subst h
      simp only [List.set_cons_zero, List.count_cons, beq_iff_eq]
      omega
    | succ i =>
      simp only [List.get?_cons_succ] at h
      have := ih i h
      simp only [List.set_cons_succ, List.count_cons]
      omega

/-- A step of the pool never changes its limit. -/
theorem Pool.step_limit (p : Pool) (e : PoolEvent) : (p.step e).limit = p.limit := by
  cases e <;> simp only [Pool.step] <;> split <;> rfl

/-- Every step keeps the pool consistent: the counter of active executions
equals the number of executing runs and stays within the limit. -/
theorem Pool.step_consistent (p : Pool) (e : PoolEvent) (h : p.Consistent) :
    (p.step e).Consistent := by
  obtain ⟨hcount, hle⟩ := h
  unfold Pool.executing at hcount
  cases e with
  | call =>
    refine ⟨?_, hle⟩
    simp [Pool.step, Pool.executing, hcount]
  | acquire i =>
    simp only [Pool.step]
    split
    · rename_i hg
      have := count_executing_set p.runs i RunPhase.acquiring RunPhase.executing hg.1
      simp only [reduceCtorEq, if_false, if_true, add_zero] at this
      refine ⟨?_, ?_⟩
      · simp only [Pool.executing, this, hcount]
      · exact hg.2
    · exact ⟨hcount, hle⟩
  | cancel i =>
    simp only [Pool.step]
    split
    · rename_i hg
      have := count_executing_set p.runs i RunPhase.acquiring
        (RunPhase.released 0 (some PoolError.acquireCancelled)) hg
      simp only [reduceCtorEq, if_false, add_zero] at this
      exact ⟨by simp only [Pool.executing, this, hcount], hle⟩
    · exact ⟨hcount, hle⟩
  | toolExit i status =>
    simp only [Pool.step]
    split
    · rename_i hg
      have := count_executing_set p.runs i RunPhase.executing
        (RunPhase.released status none) hg
      simp only [reduceCtorEq, if_false, if_true, add_zero] at this
      refine ⟨?_, ?_⟩
      · simp only [Pool.executing]
        omega
      · show p.active - 1 ≤ p.limit
        omega
    · exact ⟨hcount, hle⟩
  | toolFault i sentinel =>
    simp only [Pool.step]
    split
    · rename_i hg
      have := count_executing_set p.runs i RunPhase.executing
        (RunPhase.released sentinel (some PoolError.sandboxFault)) hg
      simp only [reduceCtorEq, if_false, if_true, add_zero] at this
      refine ⟨?_, ?_⟩
      · simp only [Pool.executing]
        omega
      · show p.active - 1 ≤ p.limit
        omega
    · exact ⟨hcount, hle⟩

/-- A schedule of events keeps a `Ready`, consistent pool `Ready` and
consistent, with the same limit. -/
theorem PoolWorld.run_ready (events : List PoolEvent) (s : PoolWorld) (p : Pool)
    (hp : s.pool = some p) (hcons : p.Consistent) :
    ∃ q, (s.run events).pool = some q ∧ q.limit = p.limit ∧ q.Consistent := by
  induction events generalizing s p with
  | nil => exact ⟨p, hp, rfl, hcons⟩
  | cons e events ih =>
    have hstep : (s.step e).pool = some (p.step e) := by
      simp [PoolWorld.step, hp]
    obtain ⟨q, hq, hlim, hq2⟩ := ih (s.step e) (p.step e) hstep (p.step_consistent e hcons)
    exact ⟨q, hq, hlim.trans (p.step_limit e), hq2⟩

/-- A successful `Init` of an `Uninitialized` pool with `max >= 1` leaves a
`Ready` pool of limit `max` with no run and no active execution. -/
theorem specPoolInit_fresh {Ctx : Type} (ctx : Ctx) (max : Int) (s : PoolWorld)
    (hmax : 1 ≤ max) (hfresh : s.pool = none) (hinit : (specPoolInit ctx max s).1 = none) :
    (specPoolInit ctx max s).2 =
      { cacheReady := s.cacheReady, compileFails := s.compileFails,
        pool := some { limit := max.toNat, active := 0, runs := [] } } := by
  have hnot : ¬ max < 1 := by omega
  unfold specPoolInit at hinit ⊢
  rw [if_neg hnot] at hinit ⊢
  by_cases hc : s.compileFails = true
  · rw [if_pos hc] at hinit
    cases hinit
  · rw [if_neg hc, hfresh]

/-- On an `Uninitialized` pool `Init` is `specPoolInit` under either
behaviour it may have on a `Ready` pool. -/
theorem specPoolInitAs_fresh {Ctx : Type} (mode : ReInit) (ctx : Ctx) (max : Int)
    (s : PoolWorld) (hfresh : s.pool = none) :
    specPoolInitAs mode ctx max s = specPoolInit ctx max s := by
  cases mode <;> simp [specPoolInitAs, hfresh]

/-- C3, amended: whichever of the two behaviours `Init` has on a `Ready`
pool, after `InitFfprobe(ctx, max)` succeeds with `max >= 1` on a pool that
was `Uninitialized`, then, for any number of callers of `Ffprobe` and any
interleaving of their steps (entering `Run`, acquiring a slot, being
cancelled while waiting, the tool exiting or faulting), the pool is `Ready`
with limit `max` and no more than `max` executions are active. -/
theorem Ffprobe_concurrent_executions_le_max {Ctx Args : Type} (mode : ReInit)
    (ctx : Ctx) (max : Int) (w : World PoolWorld Ctx Args) (events : List PoolEvent)
    (hmax : 1 ≤ max) (hfresh : w.st.pool = none)
    (hinit : (InitFfprobe specInitCache (specPoolInitAs mode) ctx max w).1 = none) :
    ∃ p, ((InitFfprobe specInitCache (specPoolInitAs mode) ctx max w).2.st.run events).pool =
        some p ∧
      (p.limit : Int) = max ∧ (p.executing : Int) ≤ max := by
  have hpool : (specInitCache w.st).pool = none := hfresh
  have hst : (InitFfprobe specInitCache (specPoolInitAs mode) ctx max w).2.st =
      (specPoolInit ctx max (specInitCache w.st)).2 := by
    show (specPoolInitAs mode ctx max (specInitCache w.st)).2 = _
    rw [specPoolInitAs_fresh mode ctx max _ hpool]
  have herr : (InitFfprobe specInitCache (specPoolInitAs mode) ctx max w).1 =
      (specPoolInit ctx max (specInitCache w.st)).1 := by
    show (specPoolInitAs mode ctx max (specInitCache w.st)).1 = _
    rw [specPoolInitAs_fresh mode ctx max _ hpool]
  rw [herr] at hinit
  rw [hst, specPoolInit_fresh ctx max (specInitCache w.st) hmax hpool hinit]
  obtain ⟨q, hq, hlim, hq2⟩ := PoolWorld.run_ready events
    { cacheReady := (specInitCache w.st).cacheReady,
      compileFails := (specInitCache w.st).compileFails,
      pool := some { limit := max.toNat, active := 0, runs := [] } }
    { limit := max.toNat, active := 0, runs := [] } rfl
    ⟨rfl, Nat.zero_le _⟩
  have hlim2 : q.limit = max.toNat := hlim
  have h2 : (max.toNat : Int) = max := Int.toNat_of_nonneg (by omega)
  refine ⟨q, hq, ?_, ?_⟩
  · rw [hlim2, h2]
  · have h1 : q.executing ≤ max.toNat := by
      rw [← hq2.1, ← hlim2]
      exact hq2.2
    omega

/-- C3, amended, evaluated: after `InitFfprobe(ctx, 2)` on a fresh process the
scenario's schedule leaves a `Ready` pool of limit two with at most two
active executions. -/
theorem Ffprobe_concurrent_executions_le_max_witness :
    ∃ p, ((InitFfprobe specInitCache (specPoolInitAs ReInit.reconfiguration) () 2
        freshWorld).2.st.run scenarioSchedule).pool = some p ∧
      (p.limit : Int) = 2 ∧ (p.executing : Int) ≤ 2 :=
  Ffprobe_concurrent_executions_le_max ReInit.reconfiguration () 2 freshWorld scenarioSchedule
    (by decide) rfl rfl

/-- C3, counterexample: three callers of `Ffprobe` are executing on a pool of
limit five when `InitFfprobe(ctx, 2)` is called.  It succeeds, with `2 >= 1`,
and right after it three executions are active, more than two: as a
re-configuration `Init` lowers the limit under the executions that are
running, as an idempotent `Init` it leaves the limit of five. -/
theorem Ffprobe_concurrent_executions_counterexample :
    busyWorld.st.executing = 3 ∧ (1 : Int) ≤ 2 ∧
    (InitFfprobe specInitCache (specPoolInitAs ReInit.reconfiguration) () 2 busyWorld).1 = none ∧
    ((InitFfprobe specInitCache (specPoolInitAs ReInit.reconfiguration) () 2
        busyWorld).2.st.run []).pool =
      some { limit := 2, active := 3,
             runs := [RunPhase.executing, RunPhase.executing, RunPhase.executing] } ∧
    ((InitFfprobe specInitCache (specPoolInitAs ReInit.reconfiguration) () 2
        busyWorld).2.st.run []).executing = 3 ∧
    (InitFfprobe specInitCache (specPoolInitAs ReInit.idempotent) () 2 busyWorld).1 = none ∧
    ((InitFfprobe specInitCache (specPoolInitAs ReInit.idempotent) () 2
        busyWorld).2.st.run []).pool =
      some { limit := 5, active := 3,
             runs := [RunPhase.executing, RunPhase.executing, RunPhase.executing] } ∧
    ((InitFfprobe specInitCache (specPoolInitAs ReInit.idempotent) () 2
        busyWorld).2.st.run []).executing = 3 ∧
    ¬ ((3 : Int) ≤ 2) := by
  decide

/-- Evaluated: in the scenario the third caller is refused a slot while two
executions are active, and gets one after the first tool exited. -/
theorem scenario_third_caller_waits :
    ((InitFfprobe specInitCache specPoolInit () 2 freshWorld).2.st.run
        (scenarioSchedule.take 8)).pool =
      some { limit := 2, active := 2,
             runs := [RunPhase.executing, RunPhase.executing, RunPhase.acquiring,
               RunPhase.acquiring, RunPhase.acquiring] } ∧
    ((InitFfprobe specInitCache specPoolInit () 2 freshWorld).2.st.run
        scenarioSchedule).pool =
      some { limit := 2, active := 2,
             runs := [RunPhase.released 0 none, RunPhase.executing, RunPhase.executing,
               RunPhase.acquiring, RunPhase.acquiring] } := by
  decide

/-- Evaluated: when the embedded bytecode does not compile, `InitFfprobe`
returns the pool's error, and the cache has been prepared all the same. -/
theorem InitFfprobe_failing_init_sample :
    (InitFfprobe specInitCache specPoolInit () 2 brokenWorld).1 = some PoolError.compile ∧
    (InitFfprobe specInitCache specPoolInit () 2 brokenWorld).2.st.cacheReady = true ∧
    (InitFfprobe specInitCache specPoolInit () 2 brokenWorld).2.calls =
      [Call.initCache, Call.poolInit () 2] := by
  decide

end Ffmpeg

end GoToSocial
